import Mathlib

/-!
Verification of the LLM code-benchmarking repository: a shallow embedding of
the type marshaler (`base_types.py`), the execution sandbox (`execution.py`),
the grading strategies (`grader.py`) and the grade serialization
(`base_types.py`), with theorems settling the frozen claims about them.

Modelling conventions:
* Python values are the inductive `PyVal`; Python `float` is modelled as an
  exact rational (`ℚ`).
* Stateful and I/O behaviour (the child process, measurement results) is
  modelled by passing the externally observed data explicitly.
* Fallible Python code (a raised exception) is modelled with `Except String`.
-/

namespace LLMBench

/-- Python runtime values, as used by the marshaler and graders.  `dict` keys
are restricted to strings, which is all the repository ever uses; this also
serves as the JSON value type for `json.dump` / `json.load` round trips. -/
inductive PyVal where
  | none
  | bool (b : Bool)
  | int (n : ℤ)
  | float (q : ℚ)
  | str (s : String)
  | list (xs : List PyVal)
  | tuple (xs : List PyVal)
  | dict (fields : List (String × PyVal))

/-- Numeric view used by Python `==`: `bool`, `int` and `float` compare by
numeric value across constructors (`5 == 5.0`, `True == 1`). -/
def PyVal.asNum : PyVal → Option ℚ
  | .bool b => some (if b then 1 else 0)
  | .int n => some (n : ℚ)
  | .float q => some q
  | _ => Option.none

mutual

/-- Python `==` on values.  Dict comparison is modelled pointwise in field
order (the repository only ever compares scalars, lists and tuples). -/
def pyEq : PyVal → PyVal → Bool
  | .none, .none => true
  | .str a, .str b => a == b
  | .list xs, .list ys => pyEqList xs ys
  | .tuple xs, .tuple ys => pyEqList xs ys
  | .dict xs, .dict ys => pyEqFields xs ys
  | a, b =>
    match a.asNum, b.asNum with
    | some x, some y => x == y
    | _, _ => false

def pyEqList : List PyVal → List PyVal → Bool
  | [], [] => true
  | x :: xs, y :: ys => pyEq x y && pyEqList xs ys
  | _, _ => false

def pyEqFields : List (String × PyVal) → List (String × PyVal) → Bool
  | [], [] => true
  | (k, v) :: xs, (l, w) :: ys => k == l && pyEq v w && pyEqFields xs ys
  | _, _ => false

end

/-! ### Characters built by code point, to keep quoting unambiguous -/

def squote : Char := Char.ofNat 39

def dquote : Char := Char.ofNat 34

def backslashChar : Char := Char.ofNat 92

def newlineChar : Char := Char.ofNat 10

def carriageReturnChar : Char := Char.ofNat 13

def startsWithChar (s : String) (c : Char) : Bool :=
  match s.data with
  | [] => false
  | d :: _ => d = c

def endsWithChar (s : String) (c : Char) : Bool :=
  match s.data.getLast? with
  | some d => d = c
  | _ => false

/-- `pat` is an initial run of `cs` (kernel-reducible `String.startswith`). -/
def startsWithChars : List Char → List Char → Bool
  | _, [] => true
  | [], _ :: _ => false
  | c :: cs, d :: ds => c = d && startsWithChars cs ds

def strStarts (s pat : String) : Bool :=
  startsWithChars s.data pat.data

def strEnds (s pat : String) : Bool :=
  startsWithChars s.data.reverse pat.data.reverse

/-- ASCII lower-casing, the part of `str.lower()` the repository relies on. -/
def charLower (c : Char) : Char :=
  if 'A' ≤ c && c ≤ 'Z' then Char.ofNat (c.toNat + 32) else c

def strLower (s : String) : String :=
  String.mk (s.data.map charLower)

def strContainsChar (s : String) (c : Char) : Bool :=
  s.data.contains c

/-! ### Type marshaler (`base_types.py`, `FunctionPrototype`) -/

/-- The quote test on line 272 of `base_types.py`:
`(input.startswith(squote) and input.endswith(squote)) or (same with dquote)`. -/
def isQuoted (s : String) : Bool :=
  (startsWithChar s squote && endsWithChar s squote) ||
    (startsWithChar s dquote && endsWithChar s dquote)

/-- `input[1:-1]`: drop the first and last character. -/
def stripQuotes (s : String) : String :=
  String.mk ((s.data.drop 1).dropLast)

/-- The `re.search` on line 268 of `base_types.py`: one layer of
`Optional[...]` is stripped from the declared type string. -/
def stripOptional (t : String) : String :=
  if strStarts t "Optional[" && strEnds t "]" then
    String.mk ((t.data.drop 9).dropLast)
  else t

def isPySpace (c : Char) : Bool :=
  c = ' ' || c = Char.ofNat 9 || c = Char.ofNat 10 || c = Char.ofNat 13 ||
    c = Char.ofNat 11 || c = Char.ofNat 12

/-- Python `int(string)`: surrounding whitespace, an optional sign, then
decimal digits (digit-group underscores are not modelled). -/
def parsePyInt (s : String) : Option ℤ :=
  let cs := (s.data.dropWhile isPySpace).reverse.dropWhile isPySpace |>.reverse
  match cs with
  | [] => Option.none
  | c :: rest =>
    let signed : Bool × List Char :=
      if c = '-' then (true, rest) else if c = '+' then (false, rest) else (false, c :: rest)
    match signed with
    | (neg, ds) =>
      if ds ≠ [] && ds.all Char.isDigit then
        let n : ℕ := ds.foldl (fun acc d => acc * 10 + (d.toNat - 48)) 0
        some (if neg then -(n : ℤ) else (n : ℤ))
      else Option.none

def parseDigits (cs : List Char) : ℕ :=
  cs.foldl (fun acc d => acc * 10 + (d.toNat - 48)) 0

/-- Python `float(string)` for finite decimal notation:
`[sign] digits [. digits] [e [sign] digits]` ("inf"/"nan" are not modelled,
`ℚ` being the value domain).  The rational is assembled with integer
arithmetic and `mkRat` so that closed calls evaluate inside proofs. -/
def parsePyFloat (s : String) : Option ℚ :=
  let cs := (s.data.dropWhile isPySpace).reverse.dropWhile isPySpace |>.reverse
  let signed : Bool × List Char :=
    match cs with
    | c :: rest =>
      if c = '-' then (true, rest) else if c = '+' then (false, rest) else (false, cs)
    | [] => (false, [])
  match signed with
  | (neg, cs) =>
    let ip := cs.takeWhile Char.isDigit
    let cs := cs.dropWhile Char.isDigit
    let fracSplit : List Char × List Char :=
      match cs with
      | c :: rest =>
        if c = '.' then (rest.takeWhile Char.isDigit, rest.dropWhile Char.isDigit)
        else ([], cs)
      | [] => ([], [])
    match fracSplit with
    | (fp, cs) =>
      if ip = [] && fp = [] then Option.none
      else
        let mantNum : ℕ := parseDigits ip * 10 ^ fp.length + parseDigits fp
        let mantDen : ℕ := 10 ^ fp.length
        let expPart : Option (Bool × ℕ) :=
          match cs with
          | [] => some (false, 0)
          | e :: rest =>
            if e = 'e' || e = 'E' then
              match rest with
              | c :: rest2 =>
                let se : Bool × List Char :=
                  if c = '-' then (true, rest2)
                  else if c = '+' then (false, rest2) else (false, rest)
                match se with
                | (eneg, ds) =>
                  if ds ≠ [] && ds.all Char.isDigit then some (eneg, parseDigits ds)
                  else Option.none
              | [] => Option.none
            else Option.none
        match expPart with
        | Option.none => Option.none
        | some (eneg, ex) =>
          let num : ℕ := if eneg then mantNum else mantNum * 10 ^ ex
          let den : ℕ := if eneg then mantDen * 10 ^ ex else mantDen
          some (if neg then -(mkRat (num : ℤ) den) else mkRat (num : ℤ) den)

mutual

/-- Python `repr` of a value, used by `str()` on containers.  The repr of
floats and the escaping inside string reprs are approximated; no theorem
depends on them. -/
def pyRepr : PyVal → String
  | .none => "None"
  | .bool true => "True"
  | .bool false => "False"
  | .int n => toString n
  | .float q => toString q
  | .str s => String.singleton squote ++ s ++ String.singleton squote
  | .list xs => "[" ++ pyReprList xs ++ "]"
  | .tuple xs => "(" ++ pyReprList xs ++ ")"
  | .dict xs => "\x7b" ++ pyReprFields xs ++ "\x7d"

def pyReprList : List PyVal → String
  | [] => ""
  | [x] => pyRepr x
  | x :: xs => pyRepr x ++ ", " ++ pyReprList xs

def pyReprFields : List (String × PyVal) → String
  | [] => ""
  | [(k, v)] => String.singleton squote ++ k ++ String.singleton squote ++ ": " ++ pyRepr v
  | (k, v) :: xs =>
    String.singleton squote ++ k ++ String.singleton squote ++ ": " ++ pyRepr v ++ ", " ++
      pyReprFields xs

end

/-- Python `str()` of a value. -/
def pyStr : PyVal → String
  | .str s => s
  | v => pyRepr v

/-- The single-character escape sequences interpreted by a Python string
literal (numeric `\x`/`\u`/octal escapes are not modelled; an unknown escape
is kept verbatim, as in Python). -/
def escMapChar (c : Char) : Option Char :=
  if c = 'n' then some (Char.ofNat 10)
  else if c = 't' then some (Char.ofNat 9)
  else if c = 'r' then some (Char.ofNat 13)
  else if c = backslashChar then some backslashChar
  else if c = squote then some squote
  else if c = dquote then some dquote
  else if c = 'a' then some (Char.ofNat 7)
  else if c = 'b' then some (Char.ofNat 8)
  else if c = 'f' then some (Char.ofNat 12)
  else if c = 'v' then some (Char.ofNat 11)
  else Option.none

/-- Scanning the body `s` of the double-quoted literal `"s"` handed to
`ast.literal_eval` on line 278 of `base_types.py`: escape sequences are
decoded; a bare double quote, a trailing backslash, or a bare line
terminator (a string literal cannot span a physical line) makes the
literal malformed (a `SyntaxError` in Python). -/
def pyDecodeDQ : List Char → Option (List Char)
  | [] => some []
  | c :: rest =>
    if c = backslashChar then
      match rest with
      | [] => Option.none
      | d :: rest2 =>
        match escMapChar d with
        | some e => (pyDecodeDQ rest2).map (fun l => e :: l)
        | Option.none => (pyDecodeDQ rest2).map (fun l => c :: d :: l)
    else if c = dquote then Option.none
    else if c = newlineChar || c = carriageReturnChar then Option.none
    else (pyDecodeDQ rest).map (fun l => c :: l)

/-- `ast.literal_eval` applied to the Python source text `"s"` (the `str`
branch of `get_python_type`). -/
def pyStrLiteralEval (s : String) : Except String PyVal :=
  match pyDecodeDQ s.data with
  | some cs => .ok (.str (String.mk cs))
  | Option.none => .error "malformed string literal"

def skipSpaces : List Char → List Char
  | c :: rest => if isPySpace c then skipSpaces rest else c :: rest
  | [] => []

/-- Scan a quoted string inside a structured literal, decoding escapes and
stopping at the matching close quote `q`; a bare line terminator inside the
literal is malformed, as in `pyDecodeDQ`. -/
def scanLitStr (q : Char) : List Char → Option (List Char × List Char)
  | [] => Option.none
  | c :: rest =>
    if c = q then some ([], rest)
    else if c = backslashChar then
      match rest with
      | [] => Option.none
      | d :: rest2 =>
        match escMapChar d with
        | some e => (scanLitStr q rest2).map (fun p => (e :: p.1, p.2))
        | Option.none => (scanLitStr q rest2).map (fun p => (c :: d :: p.1, p.2))
    else if c = newlineChar || c = carriageReturnChar then Option.none
    else (scanLitStr q rest).map (fun p => (c :: p.1, p.2))

def isNumChar (c : Char) : Bool :=
  c.isDigit || c = '+' || c = '-' || c = '.' || c = 'e' || c = 'E'

mutual

/-- Recursive-descent model of `ast.literal_eval` for the structured-literal
branch of `get_python_type`: `None`/`True`/`False`, numbers, quoted strings,
lists and tuples (dict and set displays are not modelled — the repository's
test-case literals are lists/tuples of scalars).  `fuel` bounds the nesting
depth. -/
def parseLit : ℕ → List Char → Except String (PyVal × List Char)
  | 0, _ => .error "malformed node"
  | fuel + 1, cs =>
    match skipSpaces cs with
    | [] => .error "unexpected end of literal"
    | c :: rest =>
      if c = '[' then
        match parseItems fuel ']' (c :: rest).tail with
        | .ok (xs, rest2) => .ok (.list xs, rest2)
        | .error e => .error e
      else if c = '(' then
        match parseItems fuel ')' rest with
        | .ok (xs, rest2) => .ok (.tuple xs, rest2)
        | .error e => .error e
      else if c = squote || c = dquote then
        match scanLitStr c rest with
        | some (body, rest2) => .ok (.str (String.mk body), rest2)
        | Option.none => .error "unterminated string"
      else if startsWithChars (c :: rest) "None".data then
        .ok (.none, (c :: rest).drop 4)
      else if startsWithChars (c :: rest) "True".data then
        .ok (.bool true, (c :: rest).drop 4)
      else if startsWithChars (c :: rest) "False".data then
        .ok (.bool false, (c :: rest).drop 5)
      else
        let run := (c :: rest).takeWhile isNumChar
        let rest2 := (c :: rest).dropWhile isNumChar
        match parsePyInt (String.mk run) with
        | some n => .ok (.int n, rest2)
        | Option.none =>
          match parsePyFloat (String.mk run) with
          | some q => .ok (.float q, rest2)
          | Option.none => .error "malformed node"

/-- Comma-separated literal items up to the closing bracket `close`. -/
def parseItems : ℕ → Char → List Char → Except String (List PyVal × List Char)
  | 0, _, _ => .error "malformed node"
  | fuel + 1, close, cs =>
    match skipSpaces cs with
    | [] => .error "unexpected end of literal"
    | c :: rest =>
      if c = close then .ok ([], rest)
      else
        match parseLit fuel (c :: rest) with
        | .error e => .error e
        | .ok (v, rest2) =>
          match skipSpaces rest2 with
          | [] => .error "unexpected end of literal"
          | d :: rest3 =>
            if d = close then .ok ([v], rest3)
            else if d = ',' then
              match parseItems fuel close rest3 with
              | .ok (vs, rest4) => .ok (v :: vs, rest4)
              | .error e => .error e
            else .error "malformed node"

end

/-- Top-level `ast.literal_eval(input)`: the whole string must be consumed. -/
def pyLiteralEvalTop (s : String) : Except String PyVal :=
  match parseLit (s.length + 1) s.data with
  | .ok (v, rest) =>
    if skipSpaces rest = [] then .ok v else .error "extra data after literal"
  | .error e => .error e

/-- Python `int(value)` as used by the `int` branch of `get_python_type`. -/
def pyIntFn : PyVal → Except String PyVal
  | .int n => .ok (.int n)
  | .bool b => .ok (.int (if b then 1 else 0))
  | .float q => .ok (.int (Int.tdiv q.num (q.den : ℤ)))
  | .str s =>
    match parsePyInt s with
    | some n => .ok (.int n)
    | Option.none => .error ("invalid literal for int: " ++ s)
  | _ => .error "int() argument has an unsupported type"

/-- Python `float(value)` as used by the `float` branch of `get_python_type`. -/
def pyFloatFn : PyVal → Except String PyVal
  | .float q => .ok (.float q)
  | .int n => .ok (.float (n : ℚ))
  | .bool b => .ok (.float (if b then 1 else 0))
  | .str s =>
    match parsePyFloat s with
    | some q => .ok (.float q)
    | Option.none => .error ("could not convert string to float: " ++ s)
  | _ => .error "float() argument has an unsupported type"

/-- `FunctionPrototype.get_python_type` (`base_types.py` lines 266–285): one
layer of `Optional` is stripped from the declared type; `None` passes
through; a quoted string input loses one pair of quotes; then dispatch on
the declared type (`int`, `float`, `str`, `bool`, bracketed compound type on
string input, otherwise pass-through). -/
def get_python_type (param_type : String) (input : PyVal) : Except String PyVal :=
  let pt := stripOptional param_type
  match input with
  | .none => .ok .none
  | v =>
    let v := match v with
      | .str s => if isQuoted s then PyVal.str (stripQuotes s) else PyVal.str s
      | w => w
    if pt = "int" then pyIntFn v
    else if pt = "float" then pyFloatFn v
    else if pt = "str" then pyStrLiteralEval (pyStr v)
    else if pt = "bool" then .ok (.bool (strLower (pyStr v) == "true"))
    else
      match v with
      | .str s => if strContainsChar pt '[' then pyLiteralEvalTop s else .ok (.str s)
      | w => .ok w

/-- The `for retval, expected in zip(...)` loop of `get_return_values`:
coerce each pair in order, propagating the first raised coercion error. -/
def coerceAll : List (String × PyVal) → Except String (List PyVal)
  | [] => .ok []
  | p :: ps =>
    match get_python_type p.1 p.2 with
    | .error e => .error e
    | .ok c =>
      match coerceAll ps with
      | .error e => .error e
      | .ok cs => .ok (c :: cs)

/-- `FunctionPrototype.get_return_values` (`base_types.py` lines 303–315):
coerce `return_values` zipped with `expected_output`; a length-1 result list
is returned bare, otherwise as a tuple.  `return_types` is the list of the
prototype's `ReturnValue.type` strings. -/
def get_return_values (return_types : List String) (expected_output : List PyVal) :
    Except String PyVal :=
  match coerceAll (List.zip return_types expected_output) with
  | .error e => .error e
  | .ok [c] => .ok c
  | .ok cs => .ok (.tuple cs)

/-- The environment built by `exec(function_code, exec_globals)`: an
insertion-ordered association of top-level names with whether the bound
value is callable.  Binding an already-present name replaces its value but
keeps its original position, as CPython dicts do. -/
def bindName (env : List (String × Bool)) (b : String × Bool) : List (String × Bool) :=
  if env.any (fun e => e.1 = b.1) then
    env.map (fun e => if e.1 = b.1 then (e.1, b.2) else e)
  else env ++ [b]

/-- Running a source under `exec` folds its top-level bindings, in textual
order, over the environment that already holds `__builtins__` and the names
injected by the `from typing import *` line prepended on line 52 of
`execution.py`. -/
def execEnv (initialEnv : List (String × Bool)) (source : List (String × Bool)) :
    List (String × Bool) :=
  source.foldl bindName initialEnv

/-- Line 59 of `execution.py`:
`[name for name in exec_globals if callable(exec_globals[name])][-1]`.
`Option.none` models the `IndexError` raised when no callable exists. -/
def lastCallableName (env : List (String × Bool)) : Option String :=
  ((env.filter (fun e => e.2)).getLast?).map (fun e => e.1)

/-- Modelled from the spec (claim C5's wording), for comparison with
`lastCallableName`: "the last top-level callable defined by the source" in
textual definition order. -/
def specLastTopLevelCallable (source : List (String × Bool)) : Option String :=
  ((source.filter (fun e => e.2)).getLast?).map (fun e => e.1)

/-- The single structured message `executor_script` writes to the result
file: `{'result': r, 'metrics': {'cpu_time'?, 'peak_memory'?}}` on success
(lines 90–99 of `execution.py`; a metrics entry is present exactly when the
corresponding flag requested it) or
`{'result': None, 'error': e, 'traceback': tb}` on an exception caught
inside the child (lines 101–104). -/
inductive ResultRecord where
  | success (result : PyVal) (cpu_time : Option ℚ) (peak_memory : Option ℚ)
  | failure (error : String) (traceback : String)

/-- `executor_script`'s result-file content as a function of how the
child's workload ended: a value plus requested metrics, or an exception
(message and formatted traceback) caught inside the child. -/
def executor_script (outcome : Except (String × String) (PyVal × Option ℚ × Option ℚ)) :
    ResultRecord :=
  match outcome with
  | .ok (v, c, m) => .success v c m
  | .error (e, tb) => .failure e tb

/-- `result_data.get('result')` — the failure record stores `None`. -/
def ResultRecord.getResult : ResultRecord → PyVal
  | .success v _ _ => v
  | .failure _ _ => .none

/-- `result_data.get('error')` — absent from the success record. -/
def ResultRecord.getError : ResultRecord → Option String
  | .success _ _ _ => Option.none
  | .failure e _ => some e

/-- `result_data.get('traceback')` — absent from the success record. -/
def ResultRecord.getTraceback : ResultRecord → Option String
  | .success _ _ _ => Option.none
  | .failure _ tb => some tb

/-- `result_data.get('metrics', {}).get('cpu_time')`. -/
def ResultRecord.getCpuTime : ResultRecord → Option ℚ
  | .success _ c _ => c
  | .failure _ _ => Option.none

/-- `result_data.get('metrics', {}).get('peak_memory')`. -/
def ResultRecord.getPeakMemory : ResultRecord → Option ℚ
  | .success _ _ m => m
  | .failure _ _ => Option.none

/-- `FunctionExecutionResult` (`execution.py` lines 19–30), with the
constructor's Python defaults. -/
structure FunctionExecutionResult where
  result : PyVal := .none
  cpu_time : Option ℚ := Option.none
  peak_memory : Option ℚ := Option.none
  error : Option String := Option.none
  traceback : Option String := Option.none
  function_code : String := ""
  parameters : List PyVal := []

/-- What the parent observes of the child process spawned by
`execute_function`: either the child is still alive when the 5-second
`join` returns, or it has exited leaving the result file holding a
readable record (`some`) or unreadable content (`Option.none`, e.g. the
child died before writing, making `json.load` raise). -/
inductive ChildBehavior where
  | hangs
  | terminatesWith (fileContent : Option ResultRecord)

/-- The observable effects of one `execute_function` call, beyond its
return value. -/
structure ExecEffects where
  childTerminated : Bool
  cleanupAttempted : Bool
  filesRemoved : Bool

/-- The fixed message of the timeout outcome (`execution.py` line 140). -/
def timeoutMessage : String := "Function execution timed out after 5 seconds."

/-- `str(e)` for the `json.JSONDecodeError` raised when the result file is
empty or malformed. -/
def jsonLoadFailureMessage : String := "Expecting value: line 1 column 1 (char 0)"

/-- `execute_function` (`execution.py` lines 107–175).  The four temporary
files and the child process are modelled by their observable behaviour:
* child still alive after `join(timeout=5)` → `terminate()` and return the
  timeout result **before** the cleanup block (lines 137–143);
* result file unreadable → `json.load` raises, the outer `except` returns
  an error result, again without reaching the cleanup block;
* result file readable → the four `os.unlink` calls run inside a
  `try/except` that logs failure (`unlinkOk` says whether they succeed),
  then the result object is built from the record's fields.
-/
def execute_function (function_code : String) (parameters : List PyVal)
    (behavior : ChildBehavior) (unlinkOk : Bool) :
    FunctionExecutionResult × ExecEffects :=
  match behavior with
  | .hangs =>
    ({ error := some timeoutMessage, function_code := function_code,
       parameters := parameters },
     { childTerminated := true, cleanupAttempted := false, filesRemoved := false })
  | .terminatesWith Option.none =>
    ({ error := some jsonLoadFailureMessage, function_code := function_code,
       parameters := parameters },
     { childTerminated := false, cleanupAttempted := false, filesRemoved := false })
  | .terminatesWith (some record) =>
    ({ result := record.getResult, cpu_time := record.getCpuTime,
       peak_memory := record.getPeakMemory, error := record.getError,
       traceback := record.getTraceback, function_code := function_code,
       parameters := parameters },
     { childTerminated := false, cleanupAttempted := true, filesRemoved := unlinkOk })

/-! ### Grading strategies (`grader.py`) -/

/-- One round of the adaptive iteration loop of `PerformanceGrader.grade`:
the `cpu_time` values reported by the candidate run and the reference run
at the current iteration count (`Option.none` = the run reported no time). -/
structure PerfRound where
  solutionTime : Option ℚ
  optimalTime : Option ℚ

/-- The `while True` loop of `grader.py` lines 135–153 for one test case,
continued from the running totals `(total_solution_time,
total_optimal_time)`: break before accumulating when either side reports no
time; otherwise accumulate both and break once either running total exceeds
0.4 (the totals are shared across test cases, so a previous case's time
counts against the threshold).  The observed rounds form a finite list; an
exhausted list also stops the loop. -/
def perfAccumCase : List PerfRound → ℚ × ℚ → ℚ × ℚ
  | [], tot => tot
  | r :: rs, (ts, topt) =>
    match r.solutionTime, r.optimalTime with
    | some st, some ot =>
      let ts' := ts + st
      let topt' := topt + ot
      if ts' > mkRat 2 5 ∨ topt' > mkRat 2 5 then (ts', topt')
      else perfAccumCase rs (ts', topt')
    | _, _ => (ts, topt)

/-- The totals `(total_solution_time, total_optimal_time)` accumulated by
`PerformanceGrader.grade` over all test cases of one (problem, solution)
pair, starting from `(0, 0)`.  Each test case contributes the rounds its
adaptive loop observed. -/
def performanceTotals (caseRounds : List (List PerfRound)) : ℚ × ℚ :=
  caseRounds.foldl (fun tot rounds => perfAccumCase rounds tot) (0, 0)

/-- The per-pair body of `PerformanceGrader.grade` (`grader.py` lines
128–159): a grade of `min(1, total_optimal_time / total_solution_time)` is
appended only when `total_solution_time > 0` (`Option.none` = no grade
appended for this (problem, solution) pair). -/
def performanceGradePair (caseRounds : List (List PerfRound)) : Option ℚ :=
  if (performanceTotals caseRounds).1 > 0 then
    some (min 1 ((performanceTotals caseRounds).2 / (performanceTotals caseRounds).1))
  else Option.none

/-- A measurement round reporting only nonnegative CPU times (what
`resource.getrusage` / `time.time` deltas deliver). -/
def PerfRound.nonneg (r : PerfRound) : Prop :=
  (∀ x ∈ r.solutionTime, 0 ≤ x) ∧ (∀ x ∈ r.optimalTime, 0 ≤ x)

/-- Python `code.split()`: split on whitespace runs, dropping empties. -/
def wsTokensAux : List Char → List Char → List String
  | [], acc => if acc = [] then [] else [String.mk acc.reverse]
  | c :: rest, acc =>
    if isPySpace c then
      if acc = [] then wsTokensAux rest []
      else String.mk acc.reverse :: wsTokensAux rest []
    else wsTokensAux rest (c :: acc)

def pyWhitespaceSplit (s : String) : List String :=
  wsTokensAux s.data []

/-- `set(code.split())`: the whitespace-token set of a source string. -/
def tokenSet (s : String) : Finset String :=
  (pyWhitespaceSplit s).toFinset

/-- `HumanLikeGrader.jaccard_distance` (`grader.py` lines 298–302). -/
def jaccard_distance (set1 set2 : Finset String) : ℚ :=
  let intersection := (set1 ∩ set2).card
  let union := (set1 ∪ set2).card
  if union ≠ 0 then 1 - (intersection : ℚ) / (union : ℚ) else 0

/-- The per-pair body of `HumanLikeGrader.grade` (`grader.py` lines
310–318): `1 - jaccard_distance` of the two whitespace-token sets. -/
def humanLikeScore (solution_code optimal_solution : String) : ℚ :=
  1 - jaccard_distance (tokenSet solution_code) (tokenSet optimal_solution)

/-! ### Grade records and their serialization (`base_types.py`) -/

/-- Python `dict.get(key)` on a JSON object. -/
def pyGet (fields : List (String × PyVal)) (key : String) : Option PyVal :=
  (fields.find? (fun f => f.1 = key)).map (fun f => f.2)

/-- `SolutionGrade` (`base_types.py` lines 91–118).  `sub_criteria_scores`
is `Optional[dict]` and `issues` an optional list of strings, exactly the
shapes the graders construct. -/
structure SolutionGrade where
  problem_identifier : String
  prompt_identifier : String
  model_identifier : String
  score : ℚ
  sub_criteria_scores : Option (List (String × PyVal))
  issues : Option (List String)

/-- `SolutionGrade.to_json` (`base_types.py` lines 120–129). -/
def SolutionGrade.to_json (g : SolutionGrade) : PyVal :=
  .dict [("problem_identifier", .str g.problem_identifier),
         ("prompt_identifier", .str g.prompt_identifier),
         ("model_identifier", .str g.model_identifier),
         ("score", .float g.score),
         ("sub_criteria_scores",
           match g.sub_criteria_scores with
           | some d => .dict d
           | Option.none => .none),
         ("issues",
           match g.issues with
           | some xs => .list (xs.map PyVal.str)
           | Option.none => .none)]

/-- `data.get(key, default)` for a string-typed field; a non-string value
present under the key would violate the constructor's declared field type
and is modelled as a decode failure. -/
def asStrD (v : Option PyVal) (dflt : String) : Option String :=
  match v with
  | Option.none => some dflt
  | some (.str s) => some s
  | some _ => Option.none

/-- `data.get('score', 0)`: a JSON number (the only value `to_json` ever
writes there). -/
def asScoreD (v : Option PyVal) : Option ℚ :=
  match v with
  | Option.none => some 0
  | some (.float q) => some q
  | some (.int n) => some (n : ℚ)
  | some _ => Option.none

/-- `data.get('sub_criteria_scores', None)`. -/
def asSubScores (v : Option PyVal) : Option (Option (List (String × PyVal))) :=
  match v with
  | Option.none => some Option.none
  | some .none => some Option.none
  | some (.dict d) => some (some d)
  | some _ => Option.none

/-- The elements of a JSON issue array, which `to_json` always writes as
strings. -/
def decodeStrList : List PyVal → Option (List String)
  | [] => some []
  | PyVal.str s :: xs =>
    match decodeStrList xs with
    | some ss => some (s :: ss)
    | Option.none => Option.none
  | _ => Option.none

/-- `data.get('issues', [])`: an absent key defaults to the empty list; a
present JSON `null` is Python `None`. -/
def asIssues (v : Option PyVal) : Option (Option (List String)) :=
  match v with
  | Option.none => some (some [])
  | some .none => some Option.none
  | some (.list xs) =>
    match decodeStrList xs with
    | some ss => some (some ss)
    | Option.none => Option.none
  | some _ => Option.none

/-- `SolutionGrade.from_json` (`base_types.py` lines 109–118). -/
def SolutionGrade.from_json (data : PyVal) : Option SolutionGrade :=
  match data with
  | .dict fields =>
    match asStrD (pyGet fields "problem_identifier") "",
        asStrD (pyGet fields "prompt_identifier") "",
        asStrD (pyGet fields "model_identifier") "",
        asScoreD (pyGet fields "score"),
        asSubScores (pyGet fields "sub_criteria_scores"),
        asIssues (pyGet fields "issues") with
    | some problem_identifier, some prompt_identifier, some model_identifier,
        some score, some sub_criteria_scores, some issues =>
      some ⟨problem_identifier, prompt_identifier, model_identifier, score,
            sub_criteria_scores, issues⟩
    | _, _, _, _, _, _ => Option.none
  | _ => Option.none

/-- `GradingOutput` (`base_types.py` lines 154–188). -/
structure GradingOutput where
  solution_grades : List SolutionGrade
  grader_identifier : String

/-- `GradingOutput.overall_score`: the mean of the grades' scores, `0` for
an empty list. -/
def GradingOutput.overall_score (g : GradingOutput) : ℚ :=
  match g.solution_grades with
  | [] => 0
  | grades => (grades.map (fun sg => sg.score)).sum / (grades.length : ℚ)

/-- `GradingOutput.to_json` (`base_types.py` lines 181–188): note the extra
`overall_score` key that `from_json` never reads. -/
def GradingOutput.to_json (g : GradingOutput) : PyVal :=
  .dict [("overall_score", .float g.overall_score),
         ("solution_grades", .list (g.solution_grades.map SolutionGrade.to_json)),
         ("grader_identifier", .str g.grader_identifier)]

/-- The `[SolutionGrade.from_json(gd) for gd in ...]` comprehension. -/
def decodeGrades : List PyVal → Option (List SolutionGrade)
  | [] => some []
  | x :: xs =>
    match SolutionGrade.from_json x with
    | Option.none => Option.none
    | some g =>
      match decodeGrades xs with
      | Option.none => Option.none
      | some gs => some (g :: gs)

/-- `GradingOutput.from_json` (`base_types.py` lines 173–179). -/
def GradingOutput.from_json (data : PyVal) : Option GradingOutput :=
  match data with
  | .dict fields =>
    match (pyGet fields "solution_grades").getD (.list []) with
    | .list xs =>
      match decodeGrades xs, asStrD (pyGet fields "grader_identifier") "" with
      | some solution_grades, some grader_identifier =>
        some ⟨solution_grades, grader_identifier⟩
      | _, _ => Option.none
    | _ => Option.none
  | _ => Option.none

/-- Discriminator for tuple values, used to state shape properties of
`get_return_values`. -/
def PyVal.isTupleVal : PyVal → Bool
  | .tuple _ => true
  | _ => false

/-! ## Claims -/

/-- **C1.**  When the child does not finish within the 5-second deadline,
`execute_function` terminates it and returns the timeout outcome: the fixed
timeout error message with no traceback.  A runtime exception raised by the
executed code always comes back with `traceback = some tb` (the child wrote
`traceback.format_exc()`), so the two outcomes are distinguishable — the
timeout result never equals any child-exception result. -/
theorem c1_timeout_outcome_distinct (code : String) (params : List PyVal)
    (u u' : Bool) (m tb : String) :
    (execute_function code params .hangs u).1.error = some timeoutMessage ∧
    (execute_function code params .hangs u).2.childTerminated = true ∧
    (execute_function code params .hangs u).1.traceback = Option.none ∧
    (execute_function code params
        (.terminatesWith (some (.failure m tb))) u').1.traceback = some tb ∧
    (execute_function code params .hangs u).1 ≠
      (execute_function code params (.terminatesWith (some (.failure m tb))) u').1 := by
  refine ⟨rfl, rfl, rfl, rfl, fun h => ?_⟩
  have htb := congrArg FunctionExecutionResult.traceback h
  simp [execute_function, ResultRecord.getTraceback] at htb

/-- **C2 (counterexample).**  On the timeout path `execute_function`
returns without even attempting to unlink the four temporary files, so the
claim that all four files are removed on every path (including timeout) is
false. -/
theorem c2_counterexample :
    (execute_function "" [] .hangs true).2.filesRemoved = false ∧
    (execute_function "" [] .hangs true).2.cleanupAttempted = false :=
  ⟨rfl, rfl⟩

/-- **C2 (amended).**  The four temporary files are unlinked (inside a
`try` whose failure is logged, not raised — an unlink failure leaves the
returned result unchanged) exactly on the paths that successfully read the
result file: both the success record and the child-reported-error record.
On the timeout path and on the malformed-result-file path no removal is
attempted. -/
theorem c2_cleanup_only_after_result_read (code : String) (params : List PyVal)
    (record : ResultRecord) (u : Bool) :
    (execute_function code params (.terminatesWith (some record)) u).2.cleanupAttempted
        = true ∧
    (execute_function code params (.terminatesWith (some record)) u).2.filesRemoved = u ∧
    (execute_function code params (.terminatesWith (some record)) false).1 =
      (execute_function code params (.terminatesWith (some record)) true).1 ∧
    (execute_function code params .hangs u).2.cleanupAttempted = false ∧
    (execute_function code params .hangs u).2.filesRemoved = false ∧
    (execute_function code params (.terminatesWith Option.none) u).2.cleanupAttempted
        = false ∧
    (execute_function code params (.terminatesWith Option.none) u).2.filesRemoved
        = false :=
  ⟨rfl, rfl, rfl, rfl, rfl, rfl, rfl⟩

/-- **C7.**  An outcome of `execute_function` is never both a success and a
failure: whenever its `error` field is set, its `result` is `None` — on the
timeout path, on the malformed-result path, and for both record shapes the
child can write (the success record carries no `error` key at all, the
failure record stores `result: None`).  The same exclusivity holds of the
record `executor_script` writes. -/
theorem c7_error_excludes_result (code : String) (params : List PyVal)
    (behavior : ChildBehavior) (u : Bool)
    (outcome : Except (String × String) (PyVal × Option ℚ × Option ℚ))
    (h : (execute_function code params behavior u).1.error ≠ Option.none) :
    (execute_function code params behavior u).1.result = PyVal.none ∧
    ((executor_script outcome).getError ≠ Option.none →
      (executor_script outcome).getResult = PyVal.none) := by
  constructor
  · match behavior with
    | .hangs => rfl
    | .terminatesWith Option.none => rfl
    | .terminatesWith (some (.success v c m)) => exact absurd rfl h
    | .terminatesWith (some (.failure e tb)) => rfl
  · intro h2
    match outcome with
    | .ok (v, c, m) => exact absurd rfl h2
    | .error (e, tb) => rfl

/-- **C7 (witness).**  The theorem applied to the timeout outcome. -/
theorem c7_witness :
    (execute_function "" [] .hangs true).1.error ≠ Option.none ∧
    (execute_function "" [] .hangs true).1.result = PyVal.none :=
  have h : (execute_function "" [] .hangs true).1.error ≠ Option.none := by
    simp [execute_function]
  ⟨h, (c7_error_excludes_result "" [] .hangs true (.ok (.none, Option.none, Option.none)) h).1⟩

/-- Binding a name absent from the environment appends it. -/
theorem bindName_fresh (env : List (String × Bool)) (b : String × Bool)
    (h : ∀ e ∈ env, b.1 ≠ e.1) : bindName env b = env ++ [b] := by
  unfold bindName
  rw [if_neg]
  simp only [List.any_eq_true, decide_eq_true_eq, not_exists, not_and]
  exact fun e he heq => h e he heq.symm

/-- Executing a source whose names are pairwise distinct and absent from the
starting environment appends its bindings in textual order. -/
theorem execEnv_fresh (source : List (String × Bool)) :
    ∀ initialEnv : List (String × Bool),
      (source.map Prod.fst).Nodup →
      (∀ b ∈ source, ∀ e ∈ initialEnv, b.1 ≠ e.1) →
      execEnv initialEnv source = initialEnv ++ source := by
  induction source with
  | nil => intro env _ _; simp [execEnv]
  | cons b rest ih =>
    intro env hnd hdisj
    rw [List.map_cons, List.nodup_cons] at hnd
    have hfresh : ∀ e ∈ env, b.1 ≠ e.1 :=
      fun e he => hdisj b (List.mem_cons_self _ _) e he
    show (b :: rest).foldl bindName env = env ++ b :: rest
    rw [List.foldl_cons, bindName_fresh env b hfresh]
    have hrest : execEnv (env ++ [b]) rest = (env ++ [b]) ++ rest := by
      refine ih (env ++ [b]) hnd.2 ?_
      intro b' hb' e he
      rcases List.mem_append.mp he with he | he
      · exact hdisj b' (List.mem_cons_of_mem _ hb') e he
      · have : e = b := by simpa using he
        subst this
        intro hcontra
        exact hnd.1 (hcontra ▸ List.mem_map_of_mem Prod.fst hb')
    simpa [execEnv, List.append_assoc] using hrest

/-- The last element of a list survives filtering when it satisfies the
filter. -/
theorem filter_concat_getLast {α : Type} (p : α → Bool) (l : List α) (a : α)
    (ha : p a = true) : ((l ++ [a]).filter p).getLast? = some a := by
  rw [List.filter_append]
  have : [a].filter p = [a] := by simp [ha]
  rw [this, List.getLast?_concat]

/-- A list whose `getLast?` is `some a` splits as `l' ++ [a]`. -/
theorem exists_concat_of_getLast {α : Type} :
    ∀ {l : List α} {a : α}, l.getLast? = some a → ∃ l', l = l' ++ [a]
  | [], a, h => by simp at h
  | [x], a, h => by
    refine ⟨[], ?_⟩
    simpa using (by simpa [List.getLast?] using h : x = a) ▸ rfl
  | x :: y :: rest, a, h => by
    obtain ⟨l', hl'⟩ := exists_concat_of_getLast (l := y :: rest) (a := a)
      (by simpa [List.getLast?_cons_cons] using h)
    exact ⟨x :: l', by simp [hl']⟩

/-- **C5 (counterexample).**  The child selects
`[name for name in exec_globals if callable(...)][-1]`, and a CPython dict
keeps the *first* insertion position when a key is re-bound.  So for a
source that defines `f`, then `g`, then re-defines `f`, the final top-level
callable defined by the source is `f`, but the function invoked is `g` —
positional selection does not always pick the last definition.  (The
environment starts with a callable injected by `from typing import *`.) -/
theorem c5_counterexample :
    lastCallableName (execEnv [("List", true)]
      [("f", true), ("g", true), ("f", true)]) = some "g" ∧
    specLastTopLevelCallable [("f", true), ("g", true), ("f", true)] = some "f" ∧
    some "g" ≠ some "f" := by
  refine ⟨rfl, rfl, by simp⟩

/-- **C5 (amended).**  When the source's top-level names are pairwise
distinct and distinct from every name already in the environment (the
`typing` star-import and `__builtins__`), and its final binding is a
callable `f`, the invoked function is exactly `f` — and this agrees with
the spec's "last top-level callable defined by the source" rule.  Under
redefinition of an earlier name the two rules can part ways (see the
counterexample). -/
theorem c5_last_callable_of_fresh_names (initialEnv source : List (String × Bool))
    (f : String)
    (hnd : (source.map Prod.fst).Nodup)
    (hdisj : ∀ b ∈ source, ∀ e ∈ initialEnv, b.1 ≠ e.1)
    (hlast : source.getLast? = some (f, true)) :
    lastCallableName (execEnv initialEnv source) = some f ∧
    specLastTopLevelCallable source = some f := by
  obtain ⟨source', hsplit⟩ := exists_concat_of_getLast hlast
  subst hsplit
  constructor
  · rw [execEnv_fresh _ _ hnd hdisj]
    unfold lastCallableName
    rw [← List.append_assoc]
    rw [filter_concat_getLast _ _ _ rfl]
    rfl
  · unfold specLastTopLevelCallable
    rw [filter_concat_getLast _ _ _ rfl]
    rfl

/-- **C5 (witness).**  A fresh two-function source: the second function is
selected. -/
theorem c5_witness :
    lastCallableName (execEnv [("List", true)] [("g", true), ("f", true)]) = some "f" ∧
    specLastTopLevelCallable [("g", true), ("f", true)] = some "f" :=
  c5_last_callable_of_fresh_names [("List", true)] [("g", true), ("f", true)] "f"
    (by decide) (by decide) (by decide)

/-- A successful `coerceAll` yields exactly one value per input pair. -/
theorem coerceAll_ok_length :
    ∀ {l : List (String × PyVal)} {out : List PyVal},
      coerceAll l = .ok out → out.length = l.length
  | [], out, h => by
    have : ([] : List PyVal) = out := by
      simpa [coerceAll] using h
    subst this; rfl
  | p :: ps, out, h => by
    unfold coerceAll at h
    cases hfa : get_python_type p.1 p.2 with
    | error e => rw [hfa] at h; cases h
    | ok c =>
      rw [hfa] at h
      cases hml : coerceAll ps with
      | error e => rw [hml] at h; cases h
      | ok cs =>
        rw [hml] at h
        have : c :: cs = out := by simpa using h
        subst this
        simp [coerceAll_ok_length hml]

/-- **C6 (counterexample).**  The scalar/tuple decision of
`get_return_values` is made on the *zipped* length, not the declared
arity: with two declared return values but a single expected output the
result is a bare scalar (not a 2-tuple), and with one declared return value
but an empty expected output it is an empty tuple (not a scalar). -/
theorem c6_counterexample :
    get_return_values ["int", "int"] [.str "5"] = .ok (.int 5) ∧
    (PyVal.int 5).isTupleVal = false ∧
    get_return_values ["int"] [] = .ok (.tuple []) ∧
    (PyVal.tuple []).isTupleVal = true :=
  ⟨rfl, rfl, rfl, rfl⟩

/-- **C6 (amended).**  Provided the expected-output list is at least as
long as the declared return arity, `get_return_values` applies the coercion
pairwise to `return_values` zipped with `expected_output` (extra expected
entries ignored), returns the single coerced value bare when exactly one
return value is declared, and an ordered tuple of exactly the declared
arity otherwise.  When `expected_output` is shorter than the declared
arity, the shape instead follows the zipped length (see the
counterexample). -/
theorem c6_return_shape (rts : List String) (exp : List PyVal) (v : PyVal)
    (hlen : rts.length ≤ exp.length)
    (hok : get_return_values rts exp = .ok v) :
    ∃ cs : List PyVal,
      coerceAll (List.zip rts exp) = .ok cs ∧
      cs.length = rts.length ∧
      (rts.length = 1 → ∃ c, cs = [c] ∧ v = c) ∧
      (rts.length ≠ 1 → v = .tuple cs) := by
  unfold get_return_values at hok
  cases hm : coerceAll (List.zip rts exp) with
  | error e =>
    rw [hm] at hok
    cases hok
  | ok cs =>
    rw [hm] at hok
    have hcs : cs.length = rts.length := by
      rw [coerceAll_ok_length hm, List.length_zip]
      exact Nat.min_eq_left hlen
    refine ⟨cs, rfl, hcs, ?_, ?_⟩
    · intro h1
      obtain ⟨c, hc⟩ := List.length_eq_one.mp (hcs.trans h1)
      subst hc
      exact ⟨c, rfl, by simpa using hok.symm⟩
    · intro hne
      match cs, hcs, hok with
      | [], _, hok => simpa using hok.symm
      | [c], hcs, _ => exact absurd (hcs.symm.trans rfl) (by simpa using hne)
      | c₁ :: c₂ :: rest, _, hok => simpa using hok.symm

/-- **C6 (witness).**  Arity 2 with two expected outputs: an ordered pair
of the pairwise-coerced values. -/
theorem c6_witness :
    get_return_values ["int", "str"] [.str "5", .str "a"] =
      .ok (.tuple [.int 5, .str "a"]) ∧
    ∃ cs : List PyVal,
      coerceAll (List.zip ["int", "str"] [PyVal.str "5", PyVal.str "a"]) = .ok cs ∧
      cs.length = 2 ∧
      PyVal.tuple [PyVal.int 5, PyVal.str "a"] = .tuple cs :=
  have h := c6_return_shape ["int", "str"] [.str "5", .str "a"]
    (.tuple [.int 5, .str "a"]) (by decide) rfl
  ⟨rfl, by
    obtain ⟨cs, h1, h2, _, h4⟩ := h
    exact ⟨cs, h1, by simpa using h2, h4 (by decide)⟩⟩

/-- Nonnegative starting totals and nonnegative measurements keep the
adaptive loop's totals nonnegative. -/
theorem perfAccumCase_nonneg :
    ∀ (rounds : List PerfRound) (ts topt : ℚ),
      (∀ r ∈ rounds, PerfRound.nonneg r) → 0 ≤ ts → 0 ≤ topt →
      0 ≤ (perfAccumCase rounds (ts, topt)).1 ∧
        0 ≤ (perfAccumCase rounds (ts, topt)).2
  | [], ts, topt, _, hts, htopt => ⟨hts, htopt⟩
  | r :: rs, ts, topt, h, hts, htopt => by
    obtain ⟨h1, h2⟩ := h r (List.mem_cons_self _ _)
    cases hst : r.solutionTime with
    | none => simpa [perfAccumCase, hst] using ⟨hts, htopt⟩
    | some st =>
      cases hot : r.optimalTime with
      | none => simpa [perfAccumCase, hst, hot] using ⟨hts, htopt⟩
      | some ot =>
        have hst0 : 0 ≤ st := h1 st (by simp [hst])
        have hot0 : 0 ≤ ot := h2 ot (by simp [hot])
        have hts' : 0 ≤ ts + st := add_nonneg hts hst0
        have htopt' : 0 ≤ topt + ot := add_nonneg htopt hot0
        simp only [perfAccumCase, hst, hot]
        by_cases hif : ts + st > mkRat 2 5 ∨ topt + ot > mkRat 2 5
        · rw [if_pos hif]
          exact ⟨hts', htopt'⟩
        · rw [if_neg hif]
          exact perfAccumCase_nonneg rs (ts + st) (topt + ot)
            (fun r' hr' => h r' (List.mem_cons_of_mem _ hr')) hts' htopt'

/-- The totals accumulated over all test cases are nonnegative when every
observed measurement is. -/
theorem performanceTotals_nonneg (caseRounds : List (List PerfRound))
    (h : ∀ rounds ∈ caseRounds, ∀ r ∈ rounds, PerfRound.nonneg r) :
    0 ≤ (performanceTotals caseRounds).1 ∧ 0 ≤ (performanceTotals caseRounds).2 := by
  have H : ∀ (l : List (List PerfRound)) (init : ℚ × ℚ),
      (∀ rounds ∈ l, ∀ r ∈ rounds, PerfRound.nonneg r) → 0 ≤ init.1 → 0 ≤ init.2 →
      0 ≤ (l.foldl (fun tot rounds => perfAccumCase rounds tot) init).1 ∧
        0 ≤ (l.foldl (fun tot rounds => perfAccumCase rounds tot) init).2 := by
    intro l
    induction l with
    | nil => intro init _ h1 h2; exact ⟨h1, h2⟩
    | cons rounds rest ih =>
      intro init hl h1 h2
      rw [List.foldl_cons]
      have hacc := perfAccumCase_nonneg rounds init.1 init.2
        (hl rounds (List.mem_cons_self _ _)) h1 h2
      exact ih (perfAccumCase rounds (init.1, init.2))
        (fun rs hrs => hl rs (List.mem_cons_of_mem _ hrs)) hacc.1 hacc.2
  exact H caseRounds (0, 0) h le_rfl le_rfl

/-- **C3 (counterexample).**  When the accumulated candidate time is `0`
(here: an empty test suite), `PerformanceGrader.grade` appends *no* grade
for the pair — it does not produce a grade with score `0`. -/
theorem c3_counterexample :
    (performanceTotals []).1 = 0 ∧ performanceGradePair [] = Option.none :=
  ⟨rfl, rfl⟩

/-- **C3 (amended).**  Whenever the Relative Performance strategy produces
a grade for a (problem, solution) pair, its score is
`min(1, total_optimal_time / total_solution_time)` over the totals summed
across all test cases, hence lies in `[0, 1]` (measurements being
nonnegative); when the accumulated candidate time is `0` the pair is
omitted from the output instead of receiving a score of `0` (see the
counterexample). -/
theorem c3_performance_score_clamped (caseRounds : List (List PerfRound)) (q : ℚ)
    (hnn : ∀ rounds ∈ caseRounds, ∀ r ∈ rounds, PerfRound.nonneg r)
    (hq : performanceGradePair caseRounds = some q) :
    q = min 1 ((performanceTotals caseRounds).2 / (performanceTotals caseRounds).1) ∧
    0 ≤ q ∧ q ≤ 1 := by
  unfold performanceGradePair at hq
  by_cases hpos : (performanceTotals caseRounds).1 > 0
  · rw [if_pos hpos] at hq
    have hq' := Option.some.inj hq
    have hnn2 := (performanceTotals_nonneg caseRounds hnn).2
    refine ⟨hq'.symm, ?_, ?_⟩
    · rw [← hq']
      exact le_min (by norm_num) (div_nonneg hnn2 (le_of_lt hpos))
    · rw [← hq']
      exact min_le_left _ _
  · rw [if_neg hpos] at hq
    cases hq

/-- **C3 (witness).**  A single test case measured at 1 second on each
side: the grade is produced and equals exactly `1`. -/
theorem c3_witness :
    performanceGradePair [[⟨some 1, some 1⟩]] = some 1 ∧ (0:ℚ) ≤ 1 ∧ (1:ℚ) ≤ 1 := by
  have htot : performanceTotals [[⟨some 1, some 1⟩]] = (1, 1) := by
    show perfAccumCase [⟨some 1, some 1⟩] (0, 0) = (1, 1)
    simp only [perfAccumCase]
    rw [ite_self, zero_add]
  have hgp : performanceGradePair [[⟨some 1, some 1⟩]] = some 1 := by
    unfold performanceGradePair
    rw [htot]
    rw [if_pos (by decide : (0:ℚ) < 1), div_one, min_self]
  have hnn : ∀ rounds ∈ [[(⟨some 1, some 1⟩ : PerfRound)]],
      ∀ r ∈ rounds, PerfRound.nonneg r := by
    intro rounds hr r hrr
    have : rounds = [(⟨some 1, some 1⟩ : PerfRound)] := by simpa using hr
    subst this
    have : r = (⟨some 1, some 1⟩ : PerfRound) := by simpa using hrr
    subst this
    constructor <;> intro x hx <;>
      rw [← (by simpa using hx : (1:ℚ) = x)] <;> exact zero_le_one
  exact ⟨hgp, (c3_performance_score_clamped [[⟨some 1, some 1⟩]] 1 hnn hgp).2⟩

/-- **C9.**  The human-likeness score is always in `[0, 1]`, and equals
exactly `1` iff the two whitespace-token sets coincide — including the case
of two token-free sources, which scores `1` without dividing by zero. -/
theorem c9_humanlike_score (solution_code optimal_solution : String) :
    0 ≤ humanLikeScore solution_code optimal_solution ∧
    humanLikeScore solution_code optimal_solution ≤ 1 ∧
    (humanLikeScore solution_code optimal_solution = 1 ↔
      tokenSet solution_code = tokenSet optimal_solution) := by
  set A := tokenSet solution_code with hA
  set B := tokenSet optimal_solution with hB
  have hsub : A ∩ B ⊆ A ∪ B :=
    (Finset.inter_subset_left).trans Finset.subset_union_left
  have hcard : (A ∩ B).card ≤ (A ∪ B).card := Finset.card_le_card hsub
  unfold humanLikeScore jaccard_distance
  rw [← hA, ← hB]
  by_cases hu : (A ∪ B).card = 0
  · have hAB : A = ∅ ∧ B = ∅ := by
      have := Finset.card_eq_zero.mp hu
      constructor
      · exact Finset.subset_empty.mp (this ▸ Finset.subset_union_left)
      · exact Finset.subset_empty.mp (this ▸ Finset.subset_union_right)
    rw [if_neg (by simpa using hu)]
    refine ⟨by norm_num, by norm_num, ?_⟩
    constructor
    · intro _; rw [hAB.1, hAB.2]
    · intro _; norm_num
  · rw [if_pos (by simpa using hu)]
    have hupos : (0 : ℚ) < ((A ∪ B).card : ℚ) := by
      exact_mod_cast Nat.pos_of_ne_zero hu
    have hratio : ((A ∩ B).card : ℚ) / ((A ∪ B).card : ℚ) ≤ 1 := by
      rw [div_le_one hupos]
      exact_mod_cast hcard
    have hratio0 : (0 : ℚ) ≤ ((A ∩ B).card : ℚ) / ((A ∪ B).card : ℚ) :=
      div_nonneg (by positivity) (le_of_lt hupos)
    refine ⟨by linarith, by linarith, ?_⟩
    have hkey : (1 : ℚ) - (1 - ((A ∩ B).card : ℚ) / ((A ∪ B).card : ℚ)) =
        ((A ∩ B).card : ℚ) / ((A ∪ B).card : ℚ) := by ring
    rw [hkey]
    constructor
    · intro hone
      rw [div_eq_one_iff_eq (ne_of_gt hupos)] at hone
      have hcardeq : (A ∩ B).card = (A ∪ B).card := by exact_mod_cast hone
      have hset : A ∩ B = A ∪ B :=
        Finset.eq_of_subset_of_card_le hsub (le_of_eq hcardeq.symm)
      apply Finset.Subset.antisymm
      · exact Finset.subset_union_left.trans
          (hset ▸ Finset.inter_subset_right)
      · exact Finset.subset_union_right.trans
          (hset ▸ Finset.inter_subset_left)
    · intro hAB
      rw [hAB, Finset.union_self] at hupos
      rw [hAB, Finset.inter_self, Finset.union_self, div_self (ne_of_gt hupos)]

/-- A list of strings mapped into JSON decodes back to itself. -/
theorem decodeStrList_roundTrip :
    ∀ xs : List String, decodeStrList (xs.map PyVal.str) = some xs
  | [] => rfl
  | x :: xs => by
    show decodeStrList (PyVal.str x :: xs.map PyVal.str) = _
    unfold decodeStrList
    rw [decodeStrList_roundTrip xs]

/-- One `SolutionGrade` survives `to_json` → `from_json` unchanged,
including the `None`-vs-list cases of the optional fields. -/
theorem solutionGrade_roundTrip (g : SolutionGrade) :
    SolutionGrade.from_json (SolutionGrade.to_json g) = some g := by
  obtain ⟨pid, prid, mid, score, subs, iss⟩ := g
  cases subs <;> cases iss <;>
    simp [SolutionGrade.to_json, SolutionGrade.from_json, pyGet,
      asStrD, asScoreD, asSubScores, asIssues, decodeStrList_roundTrip]

/-- The grade-list comprehension round-trips element-wise. -/
theorem decodeGrades_roundTrip :
    ∀ gs : List SolutionGrade, decodeGrades (gs.map SolutionGrade.to_json) = some gs
  | [] => rfl
  | g :: gs => by
    show decodeGrades (SolutionGrade.to_json g :: gs.map SolutionGrade.to_json) = _
    unfold decodeGrades
    rw [solutionGrade_roundTrip g, decodeGrades_roundTrip gs]

/-- **C10.**  `GradingOutput.from_json ∘ GradingOutput.to_json` is the
identity: the grader identifier and the ordered grade list are recovered
field-for-field, while the extra `overall_score` key emitted by `to_json`
is simply never read by `from_json`, so the asymmetric schema still
round-trips. -/
theorem c10_grading_output_roundtrip (g : GradingOutput) :
    GradingOutput.from_json (GradingOutput.to_json g) = some g := by
  obtain ⟨grades, gid⟩ := g
  simp [GradingOutput.to_json, GradingOutput.from_json, pyGet,
    decodeGrades_roundTrip, asStrD]

end LLMBench
